import Mathlib

/- Verification development for the computational kernel of
   `src/streamlit_app.py`: AR(1) sequence generation
   (`generate_markov_chain`), moving-average smoothing (`moving_average`),
   the per-series statistics loop (`analysis_results`) and the
   per-coefficient series dictionary (`series_dict`).

   Python floats are embedded as rationals.  The global numpy random source
   is embedded as an explicit stream of pending standard-normal draws that
   is threaded through each call; `np.random.seed(s)` replaces the pending
   stream by a stream determined by `s` alone. -/

/-- A stream of pending draws of the global numpy random source: entry `i`
is the value returned by the `i`-th future call of `np.random.randn()`. -/
abbrev RandStream : Type := ℕ → ℚ

/-- Error kinds raised on the embedded code paths: `valueError` stands for
Python `ValueError` (an argument-validation error), `indexError` for Python
`IndexError` (an out-of-range array access). -/
inductive NpError : Type
  | valueError : NpError
  | indexError : NpError
deriving DecidableEq

/-- Whether a raised error is an argument-validation ("InvalidArgument")
kind of error: a `ValueError` is, an out-of-range `IndexError` is not. -/
def NpError.isInvalidArgumentKind : NpError → Bool
  | NpError.valueError => true
  | NpError.indexError => false

/-- Loop body of `generate_markov_chain`: starting from the already written
previous cell `x`, run `k` further iterations of
`series[t] = alpha * series[t-1] + np.random.randn()`, returning the list of
written values and the advanced random stream. -/
def arIter (alpha : ℚ) (x : ℚ) (σ : RandStream) : ℕ → List ℚ × RandStream
  | 0 => ([], σ)
  | k+1 =>
    let y := alpha * x + σ 0
    let p := arIter alpha y (fun i => σ (i+1)) k
    (y :: p.1, p.2)

/-- Body of `generate_markov_chain` after the seeding statement, running on
the current global stream `σ`.  `np.zeros(num_points)` raises `ValueError`
for `num_points < 0`; for `num_points = 0` the statement
`series[0] = np.random.randn()` raises `IndexError` after consuming one
draw; otherwise the `num_points` written cells are returned together with
the advanced global stream. -/
def genAfterSeed (alpha : ℚ) (num_points : ℤ) (σ : RandStream) :
    Except NpError (List ℚ) × RandStream :=
  if num_points < 0 then (Except.error NpError.valueError, σ)
  else if num_points = 0 then (Except.error NpError.indexError, fun i => σ (i+1))
  else
    let x0 := σ 0
    let p := arIter alpha x0 (fun i => σ (i+1)) (num_points.toNat - 1)
    (Except.ok (x0 :: p.1), p.2)

/-- Embedding of `generate_markov_chain(num_points, alpha, random_seed)`.
`np.random.seed(s)` raises `ValueError` for any seed outside `[0, 2^32)`,
leaving the global stream untouched; for an in-range seed it replaces the
pending stream by `seedStream s`, the stream of standard-normal draws the
global numpy generator produces right after seeding with `s`.  `σ0` is the
pending stream on entry (used unchanged when `random_seed is None`). -/
def generate_markov_chain (seedStream : ℤ → RandStream) (num_points : ℤ)
    (alpha : ℚ) (random_seed : Option ℤ) (σ0 : RandStream) :
    Except NpError (List ℚ) × RandStream :=
  match random_seed with
  | some s =>
      if s < 0 ∨ 2 ^ 32 ≤ s then (Except.error NpError.valueError, σ0)
      else genAfterSeed alpha num_points (seedStream s)
  | none => genAfterSeed alpha num_points σ0

/-- Full discrete convolution `np.convolve(a, v)`: entry `n`, for
`n < a.length + v.length - 1`, is `Σ_k a[k] * v[n-k]`, absent entries
reading as 0. -/
def np_full_conv (a v : List ℚ) : List ℚ :=
  (List.range (a.length + v.length - 1)).map (fun n =>
    (Finset.range (n + 1)).sum (fun k => a.getD k 0 * v.getD (n - k) 0))

/-- `np.convolve(a, v, mode='valid')`: raises `ValueError` when either input
is empty; otherwise the centred slice of the full convolution, of length
`max - min + 1`, starting at index `min - 1`.  numpy swaps the operands when
`v` is longer than `a`; the full convolution is symmetric and the slice
depends only on `min`/`max` of the lengths, so no explicit swap is needed. -/
def np_convolve_valid (a v : List ℚ) : Except NpError (List ℚ) :=
  if a.isEmpty ∨ v.isEmpty then Except.error NpError.valueError
  else
    Except.ok (((np_full_conv a v).drop (min a.length v.length - 1)).take
      (max a.length v.length - min a.length v.length + 1))

/-- Embedding of `moving_average(series, window_size)`:
`np.convolve(series, np.ones(window_size)/window_size, mode='valid')`.
(A negative `window_size` would already make `np.ones` raise; the size is
embedded as a natural number.) -/
def moving_average (series : List ℚ) (window_size : ℕ) :
    Except NpError (List ℚ) :=
  np_convolve_valid series
    (List.replicate window_size ((1 : ℚ) / (window_size : ℚ)))

/-- `np.mean(s)`: arithmetic mean. -/
def np_mean (s : List ℚ) : ℚ := s.sum / (s.length : ℚ)

/-- `np.var(s)`: population variance (divide by N). -/
def np_var (s : List ℚ) : ℚ :=
  ((s.map (fun x => (x - np_mean s) ^ 2)).sum) / (s.length : ℚ)

/-- Sample autocovariances as computed by `statsmodels.tsa.stattools.acovf`
with its defaults: entry `k`, for `k < N`, is
`Σ_{t<N-k} (x_t - mean)(x_{t+k} - mean) / N`. -/
def sm_acovf (s : List ℚ) : List ℚ :=
  (List.range s.length).map (fun k =>
    ((Finset.range (s.length - k)).sum
      (fun t => (s.getD t 0 - np_mean s) * (s.getD (t + k) 0 - np_mean s))) /
      (s.length : ℚ))

/-- `sm.tsa.acf(s, nlags)`: the autocovariances truncated to the first
`nlags + 1` entries and normalised by the lag-0 autocovariance; requesting
more lags than available silently truncates, no error is raised. -/
def sm_acf (s : List ℚ) (nlags : ℕ) : List ℚ :=
  ((sm_acovf s).take (nlags + 1)).map (fun x => x / (sm_acovf s).getD 0 0)

/-- `sm.tsa.pacf(s, nlags)`.  Modelled from the documented behaviour of
statsmodels: partial autocorrelations can only be computed for lags up to
50% of the sample size, so the call raises `ValueError` unless
`nlags < nobs // 2`; the returned values themselves are produced by the
library's Yule-Walker solver and are left abstract as the parameter
`pacfVals`, since no claim constrains them. -/
def sm_pacf (pacfVals : List ℚ → ℕ → List ℚ) (s : List ℚ) (nlags : ℕ) :
    Except NpError (List ℚ) :=
  if nlags < s.length / 2 then Except.ok (pacfVals s nlags)
  else Except.error NpError.valueError

/-- One entry of the `analysis_results` dictionary of the source, with the
same fields in the same order (the Ljung-Box data frame is represented by
its p-value). -/
structure AnalysisResult where
  mean_value : ℚ
  variance_value : ℚ
  auto_corr : List ℚ
  p_auto_corr : List ℚ
  is_stationary : Bool
  adf_p_value : ℚ
  kurtosis_value : ℚ
  skewness_value : ℚ
  ljung_box_p : ℚ
deriving DecidableEq

/-- Embedding of the body of the `analysis_results` loop of the source for
one series: statistics are computed in source order; `sm.tsa.adfuller`,
`scipy.stats.kurtosis`/`skew` and `sm.stats.acorr_ljungbox` live outside
this repository and are abstracted as the parameters `adfullerF` (returning
`(statistic, p-value)`), `kurtosisF`, `skewF` and `ljungboxF`; any error one
of them raises propagates, as in the source. -/
def analysis_for (pacfVals : List ℚ → ℕ → List ℚ)
    (adfullerF : List ℚ → Except NpError (ℚ × ℚ))
    (kurtosisF : List ℚ → ℚ) (skewF : List ℚ → ℚ)
    (ljungboxF : List ℚ → ℕ → Except NpError ℚ)
    (s : List ℚ) (num_lags : ℕ) : Except NpError AnalysisResult := do
  let mean := np_mean s
  let varv := np_var s
  let ac := sm_acf s num_lags
  let pac ← sm_pacf pacfVals s num_lags
  let adf ← adfullerF s
  let kurt := kurtosisF s
  let skw := skewF s
  let lb ← ljungboxF s num_lags
  pure { mean_value := mean, variance_value := varv, auto_corr := ac,
         p_auto_corr := pac,
         is_stationary := decide (adf.2 < (5 : ℚ) / 100),
         adf_p_value := adf.2, kurtosis_value := kurt, skewness_value := skw,
         ljung_box_p := lb }

/-- The dictionary key `f"α = {a}"` used by `series_dict` in the source. -/
def alphaLabel (a : ℚ) : String := "α = " ++ toString a

/-- Insertion into a Python `dict`, represented as an association list in
insertion order: an existing key keeps its position and gets the new value,
a fresh key is appended. -/
def pyDictInsert {α : Type} (m : List (String × α)) (k : String) (v : α) :
    List (String × α) :=
  if m.any (fun p => p.1 == k) then
    m.map (fun p => if p.1 == k then (k, v) else p)
  else m ++ [(k, v)]

/-- Iteration of the dictionary comprehension: one `generate_markov_chain`
call and one dictionary insertion per coefficient, in list order, threading
the global random stream.  An exception raised by a call propagates and
aborts the comprehension: no mapping is produced. -/
def series_dict_loop (seedStream : ℤ → RandStream) (num_points : ℤ)
    (seed : ℤ) :
    List ℚ → List (String × List ℚ) → RandStream →
    Except NpError (List (String × List ℚ)) × RandStream
  | [], m, σ => (Except.ok m, σ)
  | a :: rest, m, σ =>
    match generate_markov_chain seedStream num_points a (some seed) σ with
    | (Except.error e, σ2) => (Except.error e, σ2)
    | (Except.ok r, σ2) =>
      series_dict_loop seedStream num_points seed rest
        (pyDictInsert m (alphaLabel a) r) σ2

/-- Embedding of
`series_dict = {f"α = {a}": generate_markov_chain(num_points, a, random_seed) for a in a_values}`:
the comprehension runs over `a_values` in order, starting from the empty
dictionary (each call re-seeds with the same `seed`); a raised exception
aborts it. -/
def series_dict (seedStream : ℤ → RandStream) (num_points : ℤ) (seed : ℤ)
    (a_values : List ℚ) (σ0 : RandStream) :
    Except NpError (List (String × List ℚ)) × RandStream :=
  series_dict_loop seedStream num_points seed a_values [] σ0

/-- A concrete pending-draw stream, used to instantiate witnesses. -/
def zeroStream : RandStream := fun _ => 0

/-- A second concrete pending-draw stream, distinct from `zeroStream`. -/
def oneStream : RandStream := fun _ => 1

/-- A concrete seeded-stream family, used to instantiate witnesses: after
seeding with `s`, draw `i` is `s + i`. -/
def affineSeed : ℤ → RandStream := fun s i => (s : ℚ) + (i : ℚ)

theorem arIter_fst_length (a : ℚ) : ∀ (k : ℕ) (x : ℚ) (σ : RandStream),
    (arIter a x σ k).1.length = k := by
  intro k
  induction k with
  | zero => intro x σ; simp [arIter]
  | succ m ih => intro x σ; simp [arIter, ih]

theorem arIter_fst_getD_zero (a : ℚ) (k : ℕ) (hk : 0 < k) (x : ℚ)
    (σ : RandStream) : (arIter a x σ k).1.getD 0 0 = a * x + σ 0 := by
  cases k with
  | zero => omega
  | succ m => simp [arIter]

theorem arIter_fst_getD_succ (a : ℚ) : ∀ (k i : ℕ) (x : ℚ) (σ : RandStream),
    i + 1 < k →
    (arIter a x σ k).1.getD (i+1) 0
      = a * ((arIter a x σ k).1.getD i 0) + σ (i+1) := by
  intro k
  induction k with
  | zero => intro i x σ h; omega
  | succ m ih =>
    intro i x σ h
    cases i with
    | zero =>
      have hm : 0 < m := by omega
      simp only [arIter, List.getD_cons_succ, List.getD_cons_zero]
      rw [arIter_fst_getD_zero a m hm]
    | succ j =>
      have hj : j + 1 < m := by omega
      simp only [arIter, List.getD_cons_succ]
      rw [ih j (a * x + σ 0) (fun i => σ (i+1)) hj]

/-- Reduction of `generate_markov_chain` on a literal `some` seed. -/
theorem generate_some (seedStream : ℤ → RandStream) (n : ℤ) (a : ℚ) (s : ℤ)
    (σ0 : RandStream) :
    generate_markov_chain seedStream n a (some s) σ0
      = if s < 0 ∨ 2 ^ 32 ≤ s then (Except.error NpError.valueError, σ0)
        else genAfterSeed a n (seedStream s) := rfl

/-- An out-of-range seed makes `np.random.seed` itself raise `ValueError`,
whatever the other arguments are, leaving the global stream untouched. -/
theorem generate_bad_seed (seedStream : ℤ → RandStream) (n : ℤ) (a : ℚ)
    (s : ℤ) (σ0 : RandStream) (hs : s < 0 ∨ 2 ^ 32 ≤ s) :
    generate_markov_chain seedStream n a (some s) σ0
      = (Except.error NpError.valueError, σ0) := by
  rw [generate_some, if_pos hs]

/-- Reduction of the post-seeding body with at least one point: the result
is `ok`, has `num_points` entries, its head is the first draw of the current
stream, and every later entry satisfies the AR(1) recurrence with the
subsequent draws as innovations. -/
theorem genAfterSeed_ok (a : ℚ) (n : ℤ) (σ : RandStream) (h : 1 ≤ n) :
    ∃ r : List ℚ,
      (genAfterSeed a n σ).1 = Except.ok r ∧
      r.length = n.toNat ∧
      r.getD 0 0 = σ 0 ∧
      ∀ t : ℕ, 1 ≤ t → t < n.toNat →
        r.getD t 0 = a * r.getD (t-1) 0 + σ t := by
  have hneg : ¬ n < 0 := by omega
  have hzero : ¬ n = 0 := by omega
  refine ⟨σ 0 :: (arIter a (σ 0) (fun i => σ (i+1)) (n.toNat - 1)).1,
    ?_, ?_, ?_, ?_⟩
  · simp [genAfterSeed, hneg, hzero]
  · simp only [List.length_cons, arIter_fst_length]
    omega
  · simp
  · intro t h1 h2
    cases t with
    | zero => omega
    | succ u =>
      simp only [List.getD_cons_succ, Nat.add_sub_cancel]
      cases u with
      | zero =>
        have hm : 0 < n.toNat - 1 := by omega
        rw [arIter_fst_getD_zero a _ hm]
        simp
      | succ j =>
        have hj : j + 1 < n.toNat - 1 := by omega
        rw [arIter_fst_getD_succ a _ j _ _ hj]
        simp only [List.getD_cons_succ]

/-- Reduction of a `generate_markov_chain` call with at least one point and
an in-range seed: the result is `ok`, has `num_points` entries, its head is
the first seeded draw, and every later entry satisfies the AR(1) recurrence
with the subsequent seeded draws as innovations. -/
theorem generate_ok (seedStream : ℤ → RandStream) (n : ℤ) (a : ℚ) (s : ℤ)
    (σ0 : RandStream) (h : 1 ≤ n) (hs0 : 0 ≤ s) (hs1 : s < 2 ^ 32) :
    ∃ r : List ℚ,
      (generate_markov_chain seedStream n a (some s) σ0).1 = Except.ok r ∧
      r.length = n.toNat ∧
      r.getD 0 0 = seedStream s 0 ∧
      ∀ t : ℕ, 1 ≤ t → t < n.toNat →
        r.getD t 0 = a * r.getD (t-1) 0 + seedStream s t := by
  have hb : ¬ (s < 0 ∨ 2 ^ 32 ≤ s) := by
    rintro (h1 | h2)
    · exact absurd h1 (not_lt.mpr hs0)
    · exact absurd h2 (not_le.mpr hs1)
  rw [generate_some, if_neg hb]
  exact genAfterSeed_ok a n (seedStream s) h

/-- C1 counterexample: at seed `-1` (with `numPoints = 5 ≥ 1`),
`np.random.seed` raises `ValueError` before anything is drawn, so `generate`
returns no trajectory at all — refuting the claim for "every integer
seed". -/
theorem C1_generate_bad_seed_cex :
    (1 ≤ (5:ℤ)) ∧
    (generate_markov_chain affineSeed 5 (1/2) (some (-1)) zeroStream).1
      = Except.error NpError.valueError ∧
    ∀ r : List ℚ,
      (generate_markov_chain affineSeed 5 (1/2) (some (-1)) zeroStream).1
        ≠ Except.ok r := by
  have h := generate_bad_seed affineSeed 5 (1/2) (-1) zeroStream
    (Or.inl (by decide))
  refine ⟨by decide, by rw [h], ?_⟩
  intro r hr
  rw [h] at hr
  exact Except.noConfusion hr

/-- C1 amended: for every `numPoints ≥ 1`, every coefficient and every seed
in `[0, 2^32)` (an out-of-range seed makes `np.random.seed` raise
`ValueError` instead), the seeded call `generate(numPoints, alpha, seed)`
returns a trajectory whose element 0 is the first standard-normal draw of
the seeded random source and whose element `t`, for `1 ≤ t < numPoints`,
equals `alpha` times element `t-1` plus the `t`-th draw of the seeded
source. -/
theorem C1_generate_ar1_recurrence (seedStream : ℤ → RandStream) (n : ℤ)
    (a : ℚ) (s : ℤ) (σ0 : RandStream) (h : 1 ≤ n) (hs0 : 0 ≤ s)
    (hs1 : s < 2 ^ 32) :
    ∃ r : List ℚ,
      (generate_markov_chain seedStream n a (some s) σ0).1 = Except.ok r ∧
      r.getD 0 0 = seedStream s 0 ∧
      ∀ t : ℕ, 1 ≤ t → t < n.toNat →
        r.getD t 0 = a * r.getD (t-1) 0 + seedStream s t := by
  obtain ⟨r, hr, -, h0, hrec⟩ := generate_ok seedStream n a s σ0 h hs0 hs1
  exact ⟨r, hr, h0, hrec⟩

theorem C1_generate_ar1_recurrence_witness :
    (1 ≤ (2:ℤ)) ∧ (0 ≤ (5:ℤ)) ∧ ((5:ℤ) < 2 ^ 32) ∧
    ∃ r : List ℚ,
      (generate_markov_chain affineSeed 2 3 (some 5) zeroStream).1
        = Except.ok r ∧
      r.getD 0 0 = affineSeed 5 0 ∧
      ∀ t : ℕ, 1 ≤ t → t < (2:ℤ).toNat →
        r.getD t 0 = 3 * r.getD (t-1) 0 + affineSeed 5 t :=
  ⟨by decide, by decide, by decide,
   C1_generate_ar1_recurrence affineSeed 2 3 5 zeroStream (by decide)
     (by decide) (by decide)⟩

/-- C3: two seeded calls of `generate` with identical arguments return
identical trajectories, whatever the pending state of the global random
source was before each call (determinism as a two-run property; at an
out-of-range seed both runs raise the same error). -/
theorem C3_generate_deterministic (seedStream : ℤ → RandStream) (n : ℤ)
    (a : ℚ) (s : ℤ) (σ1 σ2 : RandStream) (h : 1 ≤ n) :
    (generate_markov_chain seedStream n a (some s) σ1).1
      = (generate_markov_chain seedStream n a (some s) σ2).1 := by
  rw [generate_some, generate_some]
  by_cases hs : s < 0 ∨ 2 ^ 32 ≤ s
  · rw [if_pos hs, if_pos hs]
  · rw [if_neg hs, if_neg hs]

theorem C3_generate_deterministic_witness :
    (1 ≤ (3:ℤ)) ∧
    (generate_markov_chain affineSeed 3 (1/2) (some 42) zeroStream).1
      = (generate_markov_chain affineSeed 3 (1/2) (some 42) oneStream).1 :=
  ⟨by decide, C3_generate_deterministic affineSeed 3 (1/2) 42 zeroStream oneStream (by decide)⟩

/-- C6 counterexample: at `numPoints = 0 < 1` (with the in-range seed 0) the
code does fail, but with an `IndexError` from the unconditional `series[0]`
write, which is not an argument-validation (InvalidArgument) kind of
error. -/
theorem C6_generate_zero_points_cex :
    ((0:ℤ) < 1) ∧
    (generate_markov_chain affineSeed 0 0 (some 0) zeroStream).1
      = Except.error NpError.indexError ∧
    NpError.indexError.isInvalidArgumentKind = false := by
  refine ⟨by decide, ?_, rfl⟩
  rw [generate_some, if_neg (by decide)]
  rfl

/-- C6 amended: `np.random.seed` fails with `ValueError` for any seed
outside `[0, 2^32)`; for an in-range seed, `numPoints < 0` fails with
`ValueError` (from `np.zeros`, an argument-validation error), `numPoints = 0`
fails with an `IndexError` (from the `series[0]` write, not an
argument-validation kind), and `numPoints ≥ 1` raises no error. -/
theorem C6_generate_error_kinds (seedStream : ℤ → RandStream) (n : ℤ)
    (a : ℚ) (s : ℤ) (σ0 : RandStream) :
    ((s < 0 ∨ 2 ^ 32 ≤ s) →
      (generate_markov_chain seedStream n a (some s) σ0).1
        = Except.error NpError.valueError) ∧
    (0 ≤ s → s < 2 ^ 32 →
      (n < 0 → (generate_markov_chain seedStream n a (some s) σ0).1
        = Except.error NpError.valueError) ∧
      (n = 0 → (generate_markov_chain seedStream n a (some s) σ0).1
        = Except.error NpError.indexError) ∧
      (1 ≤ n → ∃ r, (generate_markov_chain seedStream n a (some s) σ0).1
        = Except.ok r)) := by
  constructor
  · intro hs
    rw [generate_bad_seed seedStream n a s σ0 hs]
  · intro hs0 hs1
    have hb : ¬ (s < 0 ∨ 2 ^ 32 ≤ s) := by
      rintro (h1 | h2)
      · exact absurd h1 (not_lt.mpr hs0)
      · exact absurd h2 (not_le.mpr hs1)
    refine ⟨?_, ?_, ?_⟩
    · intro hn
      rw [generate_some, if_neg hb]
      unfold genAfterSeed
      rw [if_pos hn]
    · intro hn
      subst hn
      rw [generate_some, if_neg hb]
      rfl
    · intro hn
      obtain ⟨r, hr, -, -, -⟩ := generate_ok seedStream n a s σ0 hn hs0 hs1
      exact ⟨r, hr⟩

theorem C6_generate_error_kinds_witness :
    ((generate_markov_chain affineSeed 3 0 (some (-2)) zeroStream).1
      = Except.error NpError.valueError) ∧
    ((generate_markov_chain affineSeed (-1) 0 (some 2) zeroStream).1
      = Except.error NpError.valueError) ∧
    ((generate_markov_chain affineSeed 0 0 (some 2) oneStream).1
      = Except.error NpError.indexError) ∧
    (∃ r, (generate_markov_chain affineSeed 3 0 (some 2) zeroStream).1
      = Except.ok r) :=
  ⟨(C6_generate_error_kinds affineSeed 3 0 (-2) zeroStream).1
     (Or.inl (by decide)),
   ((C6_generate_error_kinds affineSeed (-1) 0 2 zeroStream).2 (by decide)
     (by decide)).1 (by decide),
   ((C6_generate_error_kinds affineSeed 0 0 2 oneStream).2 (by decide)
     (by decide)).2.1 (by decide),
   ((C6_generate_error_kinds affineSeed 3 0 2 zeroStream).2 (by decide)
     (by decide)).2.2 (by decide)⟩

/-- C7 counterexample: at seed `-3` (with `numPoints = 4 ≥ 1`) both calls
raise `ValueError` from `np.random.seed`, so the pair of trajectories the
claim asserts does not exist — refuting it for "every integer seed". -/
theorem C7_generate_bad_seed_cex :
    (1 ≤ (4:ℤ)) ∧
    (∀ A : List ℚ,
      (generate_markov_chain affineSeed 4 1 (some (-3)) zeroStream).1
        ≠ Except.ok A) ∧
    (∀ B : List ℚ,
      (generate_markov_chain affineSeed 4 2 (some (-3)) oneStream).1
        ≠ Except.ok B) := by
  have h1 := generate_bad_seed affineSeed 4 1 (-3) zeroStream
    (Or.inl (by decide))
  have h2 := generate_bad_seed affineSeed 4 2 (-3) oneStream
    (Or.inl (by decide))
  refine ⟨by decide, ?_, ?_⟩
  · intro A hA
    rw [h1] at hA
    exact Except.noConfusion hA
  · intro B hB
    rw [h2] at hB
    exact Except.noConfusion hB

/-- C7 amended: two seeded calls of `generate` with the same
`numPoints ≥ 1` and the same seed in `[0, 2^32)` but different coefficients
`a` and `b` share the same noise innovations: the heads agree and, for every
`1 ≤ t < numPoints`, `A[t] - a*A[t-1] = B[t] - b*B[t-1]` (both sides being
the `t`-th seeded draw). -/
theorem C7_generate_shared_innovations (seedStream : ℤ → RandStream) (n : ℤ)
    (s : ℤ) (σ1 σ2 : RandStream) (a b : ℚ) (h : 1 ≤ n) (hs0 : 0 ≤ s)
    (hs1 : s < 2 ^ 32) :
    ∃ A B : List ℚ,
      (generate_markov_chain seedStream n a (some s) σ1).1 = Except.ok A ∧
      (generate_markov_chain seedStream n b (some s) σ2).1 = Except.ok B ∧
      A.getD 0 0 = B.getD 0 0 ∧
      ∀ t : ℕ, 1 ≤ t → t < n.toNat →
        A.getD t 0 - a * A.getD (t-1) 0
          = B.getD t 0 - b * B.getD (t-1) 0 := by
  obtain ⟨A, hA, -, hA0, hAr⟩ := generate_ok seedStream n a s σ1 h hs0 hs1
  obtain ⟨B, hB, -, hB0, hBr⟩ := generate_ok seedStream n b s σ2 h hs0 hs1
  refine ⟨A, B, hA, hB, by rw [hA0, hB0], ?_⟩
  intro t h1 h2
  rw [hAr t h1 h2, hBr t h1 h2]
  ring

theorem C7_generate_shared_innovations_witness :
    (1 ≤ (4:ℤ)) ∧ (0 ≤ (7:ℤ)) ∧ ((7:ℤ) < 2 ^ 32) ∧
    ∃ A B : List ℚ,
      (generate_markov_chain affineSeed 4 1 (some 7) zeroStream).1
        = Except.ok A ∧
      (generate_markov_chain affineSeed 4 2 (some 7) oneStream).1
        = Except.ok B ∧
      A.getD 0 0 = B.getD 0 0 ∧
      ∀ t : ℕ, 1 ≤ t → t < (4:ℤ).toNat →
        A.getD t 0 - 1 * A.getD (t-1) 0
          = B.getD t 0 - 2 * B.getD (t-1) 0 :=
  ⟨by decide, by decide, by decide,
   C7_generate_shared_innovations affineSeed 4 7 zeroStream oneStream 1 2
     (by decide) (by decide) (by decide)⟩

/-- C9 counterexample: at seed `-7` (with `numPoints = 6 ≥ 1`), `generate`
raises `ValueError` from `np.random.seed` and returns no trajectory,
refuting the length law for "every seed". -/
theorem C9_generate_bad_seed_cex :
    (1 ≤ (6:ℤ)) ∧
    (generate_markov_chain affineSeed 6 (1/3) (some (-7)) zeroStream).1
      = Except.error NpError.valueError ∧
    ∀ r : List ℚ,
      (generate_markov_chain affineSeed 6 (1/3) (some (-7)) zeroStream).1
        ≠ Except.ok r := by
  have h := generate_bad_seed affineSeed 6 (1/3) (-7) zeroStream
    (Or.inl (by decide))
  refine ⟨by decide, by rw [h], ?_⟩
  intro r hr
  rw [h] at hr
  exact Except.noConfusion hr

/-- C9 amended: for every `numPoints ≥ 1`, every coefficient and every seed
in `[0, 2^32)` (an out-of-range seed makes `np.random.seed` raise instead),
the trajectory returned by the seeded `generate` call has length exactly
`numPoints`. -/
theorem C9_generate_length (seedStream : ℤ → RandStream) (n : ℤ) (a : ℚ)
    (s : ℤ) (σ0 : RandStream) (h : 1 ≤ n) (hs0 : 0 ≤ s)
    (hs1 : s < 2 ^ 32) :
    ∃ r : List ℚ,
      (generate_markov_chain seedStream n a (some s) σ0).1 = Except.ok r ∧
      (r.length : ℤ) = n := by
  obtain ⟨r, hr, hlen, -, -⟩ := generate_ok seedStream n a s σ0 h hs0 hs1
  exact ⟨r, hr, by omega⟩

theorem C9_generate_length_witness :
    (1 ≤ (6:ℤ)) ∧ (0 ≤ (11:ℤ)) ∧ ((11:ℤ) < 2 ^ 32) ∧
    ∃ r : List ℚ,
      (generate_markov_chain affineSeed 6 (1/3) (some 11) zeroStream).1
        = Except.ok r ∧ (r.length : ℤ) = 6 :=
  ⟨by decide, by decide, by decide,
   C9_generate_length affineSeed 6 (1/3) 11 zeroStream (by decide)
     (by decide) (by decide)⟩

theorem getD_replicate (c : ℚ) (w j : ℕ) :
    (List.replicate w c).getD j 0 = if j < w then c else 0 := by
  by_cases h : j < w
  · rw [if_pos h, List.getD_eq_getElem _ _ (by simpa using h),
      List.getElem_replicate]
  · rw [if_neg h, List.getD_eq_default _ _ (by simp; omega)]

theorem np_full_conv_length (a v : List ℚ) :
    (np_full_conv a v).length = a.length + v.length - 1 := by
  simp [np_full_conv]

theorem np_full_conv_getElem (a v : List ℚ) (n : ℕ)
    (h : n < (np_full_conv a v).length) :
    (np_full_conv a v)[n]
      = (Finset.range (n + 1)).sum (fun k => a.getD k 0 * v.getD (n - k) 0) := by
  simp [np_full_conv]

/-- Value of one valid-mode convolution entry of a series against the
uniform kernel: the windowed sum scaled by `1/w`. -/
theorem conv_window_sum (s : List ℚ) (w i : ℕ) (h1 : 1 ≤ w) :
    (Finset.range (w - 1 + i + 1)).sum
      (fun k => s.getD k 0 *
        (List.replicate w ((1:ℚ) / (w:ℚ))).getD (w - 1 + i - k) 0)
    = ((Finset.range w).sum (fun j => s.getD (i + j) 0)) / (w : ℚ) := by
  have he : w - 1 + i + 1 = i + w := by omega
  rw [he, Finset.range_eq_Ico,
    ← Finset.sum_Ico_consecutive _ (Nat.zero_le i) (Nat.le_add_right i w)]
  have hz : (Finset.Ico 0 i).sum
      (fun k => s.getD k 0 *
        (List.replicate w ((1:ℚ) / (w:ℚ))).getD (w - 1 + i - k) 0) = 0 := by
    apply Finset.sum_eq_zero
    intro k hk
    rw [Finset.mem_Ico] at hk
    rw [getD_replicate, if_neg (by omega), mul_zero]
  rw [hz, zero_add]
  have hm : ∀ k ∈ Finset.Ico i (i + w),
      s.getD k 0 *
        (List.replicate w ((1:ℚ) / (w:ℚ))).getD (w - 1 + i - k) 0
        = s.getD k 0 * ((1:ℚ) / (w:ℚ)) := by
    intro k hk
    rw [Finset.mem_Ico] at hk
    rw [getD_replicate, if_pos (by omega)]
  rw [Finset.sum_congr rfl hm, Finset.sum_Ico_eq_sum_range]
  have hw2 : i + w - i = w := by omega
  rw [hw2, ← Finset.sum_mul, mul_one_div, Finset.range_eq_Ico]

/-- Closed form of `moving_average` on a window that fits the series: the
list of windowed means. -/
theorem moving_average_eq_map (s : List ℚ) (w : ℕ) (h1 : 1 ≤ w)
    (h2 : w ≤ s.length) :
    moving_average s w = Except.ok ((List.range (s.length - w + 1)).map
      (fun i => ((Finset.range w).sum (fun j => s.getD (i + j) 0)) / (w : ℚ))) := by
  have hse : s.isEmpty = false := by
    cases s with
    | nil => simp at h2; omega
    | cons a l => simp
  have hwe : (List.replicate w ((1:ℚ) / (w:ℚ))).isEmpty = false := by
    cases w with
    | zero => omega
    | succ m => simp [List.replicate]
  have hcond : ¬ ((s.isEmpty : Prop) ∨
      ((List.replicate w ((1:ℚ) / (w:ℚ))).isEmpty : Prop)) := by
    simp [hse]
    omega
  unfold moving_average np_convolve_valid
  rw [if_neg hcond]
  refine congrArg Except.ok ?_
  have hmin : min s.length (List.replicate w ((1:ℚ) / (w:ℚ))).length = w := by
    simp only [List.length_replicate]; omega
  have hmax : max s.length (List.replicate w ((1:ℚ) / (w:ℚ))).length
      = s.length := by
    simp only [List.length_replicate]; omega
  rw [hmin, hmax]
  apply List.ext_getElem
  · simp only [List.length_take, List.length_drop, np_full_conv_length,
      List.length_replicate, List.length_map, List.length_range]
    omega
  · intro i hi1 hi2
    have hi : i < s.length - w + 1 := by
      simp only [List.length_take, List.length_drop, np_full_conv_length,
        List.length_replicate] at hi1
      omega
    have hfull : w - 1 + i < (np_full_conv s
        (List.replicate w ((1:ℚ) / (w:ℚ)))).length := by
      rw [np_full_conv_length, List.length_replicate]
      omega
    rw [List.getElem_take, List.getElem_drop, List.getElem_map,
      List.getElem_range]
    rw [np_full_conv_getElem _ _ _ (by rw [np_full_conv_length]; simp only [List.length_replicate]; omega)]
    exact conv_window_sum s w i h1

/-- C2: for every series and every window `w` with `1 ≤ w ≤ len(s)`,
`moving_average` returns a trajectory of length `len(s) - w + 1` whose entry
`i` is the unweighted arithmetic mean of `s[i], ..., s[i+w-1]`. -/
theorem C2_moving_average_mean (s : List ℚ) (w : ℕ) (h1 : 1 ≤ w)
    (h2 : w ≤ s.length) :
    ∃ r : List ℚ, moving_average s w = Except.ok r ∧
      r.length = s.length - w + 1 ∧
      ∀ i : ℕ, i < r.length →
        r.getD i 0 = ((Finset.range w).sum (fun j => s.getD (i + j) 0)) / (w : ℚ) := by
  refine ⟨_, moving_average_eq_map s w h1 h2, by simp, ?_⟩
  intro i hi
  simp only [List.length_map, List.length_range] at hi
  rw [List.getD_eq_getElem _ _ (by simpa using hi), List.getElem_map,
    List.getElem_range]

theorem C2_moving_average_mean_witness :
    (1 ≤ 2) ∧ (2 ≤ [(1:ℚ), 2, 3].length) ∧
    ∃ r : List ℚ, moving_average [(1:ℚ), 2, 3] 2 = Except.ok r ∧
      r.length = [(1:ℚ), 2, 3].length - 2 + 1 ∧
      ∀ i : ℕ, i < r.length →
        r.getD i 0 = ((Finset.range 2).sum
          (fun j => [(1:ℚ), 2, 3].getD (i + j) 0)) / ((2:ℕ) : ℚ) :=
  ⟨by decide, by decide, C2_moving_average_mean [(1:ℚ), 2, 3] 2 (by decide) (by decide)⟩

/-- C8: on every nonempty series (a Trajectory always has at least one
point), smoothing with window size 1 is the identity transform. -/
theorem C8_moving_average_one (s : List ℚ) (h : s ≠ []) :
    moving_average s 1 = Except.ok s := by
  have h2 : 1 ≤ s.length := by
    cases s with
    | nil => exact absurd rfl h
    | cons a l => simp
  rw [moving_average_eq_map s 1 le_rfl h2]
  refine congrArg Except.ok ?_
  have hlen : s.length - 1 + 1 = s.length := by omega
  rw [hlen]
  apply List.ext_getElem
  · simp
  · intro i hi1 hi2
    simp only [List.getElem_map, List.getElem_range, Finset.sum_range_one,
      Nat.add_zero, Nat.cast_one, div_one]
    exact List.getD_eq_getElem s 0 hi2

theorem C8_moving_average_one_witness :
    ([(5:ℚ), 7] ≠ []) ∧ moving_average [(5:ℚ), 7] 1 = Except.ok [(5:ℚ), 7] :=
  ⟨by decide, C8_moving_average_one [(5:ℚ), 7] (by decide)⟩

/-- An oversized window does not make `moving_average` fail: numpy swaps the
operands of a valid-mode convolution when the kernel is the longer one, so a
nonempty series with `len(s) < w` yields a result of length
`w - len(s) + 1`. -/
theorem moving_average_oversized_ok (s : List ℚ) (w : ℕ) (h1 : s ≠ [])
    (h2 : s.length < w) :
    ∃ r : List ℚ, moving_average s w = Except.ok r ∧
      r.length = w - s.length + 1 := by
  have hL : 1 ≤ s.length := by
    cases s with
    | nil => exact absurd rfl h1
    | cons a l => simp
  have hse : s.isEmpty = false := by
    cases s with
    | nil => exact absurd rfl h1
    | cons a l => simp
  have hwe : (List.replicate w ((1:ℚ) / (w:ℚ))).isEmpty = false := by
    cases w with
    | zero => omega
    | succ m => simp [List.replicate]
  have hcond : ¬ ((s.isEmpty : Prop) ∨
      ((List.replicate w ((1:ℚ) / (w:ℚ))).isEmpty : Prop)) := by
    simp [hse]
    omega
  unfold moving_average np_convolve_valid
  rw [if_neg hcond]
  refine ⟨_, rfl, ?_⟩
  simp only [List.length_take, List.length_drop, np_full_conv_length,
    List.length_replicate]
  omega

/-- C5 counterexample: at `s = [1]` and `w = 2 > len(s) = 1` the smoother
returns a trajectory instead of failing. -/
theorem C5_moving_average_oversized_cex :
    (([(1:ℚ)]).length < 2) ∧
    ∃ r : List ℚ, moving_average [(1:ℚ)] 2 = Except.ok r :=
  ⟨by decide,
   (moving_average_oversized_ok [(1:ℚ)] 2 (by decide) (by decide)).elim
     (fun r hr => ⟨r, hr.1⟩)⟩

/-- C5 amended: for a nonempty series `s` and `w > len(s)`,
`moving_average` raises no error and returns a trajectory of length
`w - len(s) + 1` (numpy valid-mode convolution swaps the operands when the
kernel is longer). -/
theorem C5_moving_average_oversized (s : List ℚ) (w : ℕ) (h1 : s ≠ [])
    (h2 : s.length < w) :
    ∃ r : List ℚ, moving_average s w = Except.ok r ∧
      r.length = w - s.length + 1 :=
  moving_average_oversized_ok s w h1 h2

theorem C5_moving_average_oversized_witness :
    ([(1:ℚ)] ≠ []) ∧ ([(1:ℚ)].length < 3) ∧
    ∃ r : List ℚ, moving_average [(1:ℚ)] 3 = Except.ok r ∧
      r.length = 3 - [(1:ℚ)].length + 1 :=
  ⟨by decide, by decide,
   C5_moving_average_oversized [(1:ℚ)] 3 (by decide) (by decide)⟩

/-- C4: the `analysis_results` loop body fails, with an argument-validation
(`ValueError`) error, whenever `numLags ≥ len(s)` on a nonempty series: the
`sm.tsa.pacf` call rejects lags of at least 50% of the sample size before
any result is assembled.  This holds for every behaviour of the downstream
library statistics. -/
theorem C4_analysis_invalid_lags (pacfVals : List ℚ → ℕ → List ℚ)
    (adfullerF : List ℚ → Except NpError (ℚ × ℚ))
    (kurtosisF skewF : List ℚ → ℚ)
    (ljungboxF : List ℚ → ℕ → Except NpError ℚ)
    (s : List ℚ) (num_lags : ℕ) (h1 : s ≠ []) (h2 : s.length ≤ num_lags) :
    analysis_for pacfVals adfullerF kurtosisF skewF ljungboxF s num_lags
      = Except.error NpError.valueError ∧
    NpError.valueError.isInvalidArgumentKind = true := by
  have hguard : ¬ num_lags < s.length / 2 := by omega
  refine ⟨?_, rfl⟩
  unfold analysis_for sm_pacf
  rw [if_neg hguard]
  rfl

theorem C4_analysis_invalid_lags_witness :
    ([(0:ℚ)] ≠ []) ∧ ([(0:ℚ)].length ≤ 1) ∧
    (analysis_for (fun _ _ => []) (fun _ => Except.ok (0, 0)) (fun _ => 0)
        (fun _ => 0) (fun _ _ => Except.ok 0) [(0:ℚ)] 1
      = Except.error NpError.valueError ∧
     NpError.valueError.isInvalidArgumentKind = true) :=
  ⟨by decide, by decide,
   C4_analysis_invalid_lags (fun _ _ => []) (fun _ => Except.ok (0, 0))
     (fun _ => 0) (fun _ => 0) (fun _ _ => Except.ok 0) [(0:ℚ)] 1
     (by decide) (by decide)⟩

/-- C10 counterexample: with the (distinct, well-formed) coefficient list
`[0]` but the seed `-1`, the very first `generate_markov_chain` call raises
`ValueError` from `np.random.seed` and the comprehension aborts: no mapping
at all is produced, refuting the ordered-keys claim for "every
configuration". -/
theorem C10_series_dict_bad_seed_cex :
    ([(0:ℚ)].map alphaLabel).Nodup ∧
    (series_dict affineSeed 3 (-1) [(0:ℚ)] zeroStream).1
      = Except.error NpError.valueError ∧
    ∀ d : List (String × List ℚ),
      (series_dict affineSeed 3 (-1) [(0:ℚ)] zeroStream).1
        ≠ Except.ok d := by
  have h := generate_bad_seed affineSeed 3 0 (-1) zeroStream
    (Or.inl (by decide))
  have hrun : (series_dict affineSeed 3 (-1) [(0:ℚ)] zeroStream).1
      = Except.error NpError.valueError := by
    unfold series_dict
    rw [series_dict_loop, h]
  refine ⟨by decide, hrun, ?_⟩
  intro d hd
  rw [hrun] at hd
  exact Except.noConfusion hd

/-- Keys accumulated by the `series_dict` comprehension: with at least one
point, an in-range seed, pending coefficient labels fresh for the already
built dictionary and mutually distinct, every `generate` call succeeds and
every iteration appends its label, so the comprehension completes and the
key order is the coefficient order. -/
theorem series_dict_loop_keys (seedStream : ℤ → RandStream) (n : ℤ)
    (seed : ℤ) (hn : 1 ≤ n) (hs0 : 0 ≤ seed) (hs1 : seed < 2 ^ 32) :
    ∀ (avals : List ℚ) (m : List (String × List ℚ)) (σ : RandStream),
      (∀ a ∈ avals, ∀ p ∈ m, p.1 ≠ alphaLabel a) →
      (avals.map alphaLabel).Nodup →
      ∃ d : List (String × List ℚ),
        (series_dict_loop seedStream n seed avals m σ).1 = Except.ok d ∧
        d.map Prod.fst = m.map Prod.fst ++ avals.map alphaLabel := by
  intro avals
  induction avals with
  | nil =>
    intro m σ hfresh hnd
    exact ⟨m, rfl, by simp⟩
  | cons a0 rest ih =>
    intro m σ hfresh hnd
    obtain ⟨r, hr, -, -, -⟩ := generate_ok seedStream n a0 seed σ hn hs0 hs1
    rcases hgen : generate_markov_chain seedStream n a0 (some seed) σ
      with ⟨res, σ2⟩
    have hres : res = Except.ok r := by
      rw [hgen] at hr
      exact hr
    subst hres
    have hany : m.any (fun p => p.1 == alphaLabel a0) = false := by
      apply List.any_eq_false.mpr
      intro p hp
      simp only [beq_iff_eq]
      exact hfresh a0 (List.mem_cons_self a0 rest) p hp
    have hstep : pyDictInsert m (alphaLabel a0) r
        = m ++ [(alphaLabel a0, r)] := by
      unfold pyDictInsert
      rw [hany]
      simp
    have hnd0 : alphaLabel a0 ∉ rest.map alphaLabel :=
      (List.nodup_cons.mp (by simpa using hnd)).1
    have hndr : (rest.map alphaLabel).Nodup :=
      (List.nodup_cons.mp (by simpa using hnd)).2
    have hfresh2 : ∀ a ∈ rest, ∀ p ∈ m ++ [(alphaLabel a0, r)],
        p.1 ≠ alphaLabel a := by
      intro a ha p hp
      rcases List.mem_append.mp hp with hpm | hp0
      · exact hfresh a (List.mem_cons_of_mem a0 ha) p hpm
      · have hp1 : p.1 = alphaLabel a0 := by
          simp only [List.mem_singleton] at hp0
          rw [hp0]
        rw [hp1]
        intro hcontra
        exact hnd0 (hcontra ▸ List.mem_map_of_mem alphaLabel ha)
    obtain ⟨d, hd, hkeys⟩ := ih (m ++ [(alphaLabel a0, r)]) σ2 hfresh2 hndr
    refine ⟨d, ?_, ?_⟩
    · rw [series_dict_loop, hgen]
      show (series_dict_loop seedStream n seed rest
        (pyDictInsert m (alphaLabel a0) r) σ2).1 = Except.ok d
      rw [hstep]
      exact hd
    · rw [hkeys]
      simp

/-- C10 amended: for every configuration with `numPoints ≥ 1`, a seed in
`[0, 2^32)` (an out-of-range seed aborts the comprehension with the seeding
`ValueError`) and pairwise distinct coefficient labels (the configured
coefficients form a set; the application's hard-coded `a_values` are
distinct), the comprehension completes and the resulting dictionary holds
exactly one entry per coefficient, its keys in exactly the order of the
coefficient list. -/
theorem C10_series_dict_order (seedStream : ℤ → RandStream) (n : ℤ)
    (seed : ℤ) (a_values : List ℚ) (σ0 : RandStream) (hn : 1 ≤ n)
    (hs0 : 0 ≤ seed) (hs1 : seed < 2 ^ 32)
    (h : (a_values.map alphaLabel).Nodup) :
    ∃ d : List (String × List ℚ),
      (series_dict seedStream n seed a_values σ0).1 = Except.ok d ∧
      d.map Prod.fst = a_values.map alphaLabel ∧
      d.length = a_values.length := by
  obtain ⟨d, hd, hkeys⟩ := series_dict_loop_keys seedStream n seed hn hs0 hs1
    a_values [] σ0 (by simp) h
  refine ⟨d, hd, by simpa using hkeys, ?_⟩
  have hlen := congrArg List.length hkeys
  simpa using hlen

theorem C10_series_dict_order_witness :
    (1 ≤ (3:ℤ)) ∧ (0 ≤ (42:ℤ)) ∧ ((42:ℤ) < 2 ^ 32) ∧
    (([(0:ℚ), 1, -2].map alphaLabel).Nodup) ∧
    ∃ d : List (String × List ℚ),
      (series_dict affineSeed 3 42 [(0:ℚ), 1, -2] zeroStream).1
        = Except.ok d ∧
      d.map Prod.fst = [(0:ℚ), 1, -2].map alphaLabel ∧
      d.length = [(0:ℚ), 1, -2].length :=
  ⟨by decide, by decide, by decide, by decide,
   C10_series_dict_order affineSeed 3 42 [(0:ℚ), 1, -2] zeroStream
     (by decide) (by decide) (by decide) (by decide)⟩
